import Mathlib

/-!
Verification of the `sqs` queue-client library (Go) against its specification.

The development shallowly embeds the message-flow core of the repository:

* `queue.go` — the queue client (`NewQueue`, `Insert`, `InsertBatch`, `Delete`,
  `DeleteBatch`, `Peek`, `PeekBatch`, `Pop`, `PopBatch`, `Clear`,
  `ApproximateLen`, plus the helpers `makeBatchRequestEntries`,
  `makeDeleteMessageBatchRequestEntry`, `convertAwsMessagesToItems`,
  `convertItemsToAwsMessages`, `invalidVisibilityTimeout`,
  `waitForPurgeCompletion`, `generateRandomID`).
* `mock_queue.go` — the in-memory backend (`mockService` with `SendMessage`,
  `SendMessageBatch`, `DeleteMessage`, `DeleteMessageBatch`,
  `GetQueueAttributes`, `PurgeQueue`, `ReceiveMessage`).

Modelling conventions:

* Go functions returning `(T, error)` are modelled as pairs
  `Option T × Option GoErr` (a `nil` pointer or `nil` error is `none`).
* A Go runtime panic (slice bound violation, nil dereference) is modelled as
  `none` in an `Option`-valued result.
* Backend calls of the real (network) adapter are modelled by passing their
  outcome as an explicit parameter: quantifying over those parameters
  quantifies over every possible backend state and response.
* The process-global random source (`math/rand`) is modelled as a stream
  `Nat → Nat` of draws; `rand.Intn n` reads the head of the stream modulo `n`
  and the stream is advanced past the consumed draws.
* Go slices are modelled by their contents (`List String`); a slice
  expression `s[k:]` is in bounds when `k` does not exceed the length (the
  exact Go bound is the capacity, which equals the length whenever no spare
  capacity is left — in particular for a freshly created mock queue).
* Go 1.22+ per-iteration loop-variable semantics are assumed for
  `range`-loop variables whose address is taken (`&item` in
  `makeBatchRequestEntries`), which is what a current toolchain compiles
  this (module-less) package with.
-/

namespace SQS

/-- Errors surfaced by the client. `invalidVisibilityTimeout` is the package
sentinel `ErrInvalidVisibilityTimeout`; every error coming back from the AWS
SDK or the network is some `aws msg` and is a different value from the
sentinel (in Go the sentinel is a private package-level variable the SDK
cannot return). -/
inductive GoErr where
  | invalidVisibilityTimeout
  | aws (msg : String)
deriving DecidableEq

/-- The wire message type `sqs.Message` restricted to the fields this
repository reads or writes: `Body`, `ReceiptHandle`, `MessageId` (all
`*string` in Go, hence `Option String` here). -/
structure Message where
  body : Option String
  receiptHandle : Option String
  messageId : Option String
deriving DecidableEq

/-- `type Item sqs.Message` — the client's item type is a transparent rename
of the wire message type. -/
abbrev Item := Message

/-- `Config` from `queue.go`: visibility timeout (Go `int`, so `Int`),
region and name. -/
structure Config where
  visibilityTimeout : Int
  region : String
  name : String
deriving DecidableEq

/-- `Queue` from `queue.go` without the service handle: visibility timeout
and the `Name`/`Region`/`URL` pointer fields (`nil` unless assigned). -/
structure Queue where
  visibilityTimeout : Int
  name : Option String
  region : Option String
  url : Option String
deriving DecidableEq

/-- `invalidVisibilityTimeout` from `queue.go`: `return timeout == 0`. -/
def invalidVisibilityTimeout (timeout : Int) : Bool :=
  timeout == 0

/-- `NewQueue` from `queue.go`. The two backend interactions are passed in as
outcomes: `svcErr` is the error of `getService` and `urlVal`/`urlErr` are the
two results of `getQueueURL`. Mirrors the source: the validation check first,
then `getService` (early return on error), then `getQueueURL`, whose error is
returned together with the queue pointer (`return &q, err`). `Name` and
`Region` are never assigned by `NewQueue` and stay `nil`. -/
def newQueue (config : Config) (svcErr : Option String)
    (urlVal : Option String) (urlErr : Option String) :
    Option Queue × Option GoErr :=
  if invalidVisibilityTimeout config.visibilityTimeout then
    (none, some GoErr.invalidVisibilityTimeout)
  else
    match svcErr with
    | some e => (none, some (GoErr.aws e))
    | none =>
      (some ⟨config.visibilityTimeout, none, none, urlVal⟩, urlErr.map GoErr.aws)

/-- `convertAwsMessagesToItems` from `queue.go`: each message is cast through
`Item(*message)`, an identity on contents. -/
def convertAwsMessagesToItems (awsMessages : List Message) : List Item :=
  awsMessages.map (fun message => message)

/-- `convertItemsToAwsMessages` from `queue.go`: the inverse cast, again an
identity on contents. -/
def convertItemsToAwsMessages (messages : List Item) : List Message :=
  messages.map (fun message => message)

/-- `sqs.SendMessageBatchRequestEntry` restricted to the fields this
repository writes: `Id` and `MessageBody` (both `*string`). -/
structure SendMessageBatchRequestEntry where
  id : Option String
  messageBody : Option String
deriving DecidableEq

/-- `sqs.DeleteMessageBatchRequestEntry` restricted to the fields this
repository writes: `ReceiptHandle` and `Id`. -/
structure DeleteMessageBatchRequestEntry where
  receiptHandle : Option String
  id : Option String
deriving DecidableEq

/-- `makeDeleteMessageBatchRequestEntry` from `queue.go`: one entry per
message, carrying that message's receipt handle and backend identifier. -/
def makeDeleteMessageBatchRequestEntry (messages : List Message) :
    List DeleteMessageBatchRequestEntry :=
  messages.map (fun message => ⟨message.receiptHandle, message.messageId⟩)

/-- The alphabet of `generateRandomID` in `queue.go`:
`"abcdefghijklmnopqrstuvwxyzABCDEFGHIJKLMNOPQRSTUVWXYZ"`. -/
def letters : List Char :=
  "abcdefghijklmnopqrstuvwxyzABCDEFGHIJKLMNOPQRSTUVWXYZ".toList

/-- `generateRandomID` from `queue.go`: 15 characters, each
`letters[rand.Intn(len(letters))]`. The random source is the draw stream `σ`;
`rand.Intn n` is modelled as `σ i % n` (always within `[0, n)`, like the Go
call). -/
def generateRandomID (σ : Nat → Nat) : String :=
  String.mk ((List.range 15).map (fun i => letters.getD (σ i % letters.length) ' '))

/-- `makeBatchRequestEntries` from `queue.go`: one entry per input item,
pairing the item's body with a fresh `generateRandomID()`. Each entry
consumes 15 draws of the random stream; the recursive call resumes the
stream after them. -/
def makeBatchRequestEntries : List String → (Nat → Nat) → List SendMessageBatchRequestEntry
  | [], _ => []
  | item :: rest, σ =>
    ⟨some (generateRandomID σ), some item⟩ ::
      makeBatchRequestEntries rest (fun n => σ (n + 15))

/-- `mockService` from `mock_queue.go`: the in-memory backend, a slice of
pending bodies. -/
structure MockService where
  queue : List String
deriving DecidableEq

/-- `mockService.SendMessage`: appends `*input.MessageBody` to the queue. -/
def sendMessage (m : MockService) (messageBody : String) : MockService :=
  ⟨m.queue ++ [messageBody]⟩

/-- `mockService.SendMessageBatch`: appends `*input.MessageBody` of every
entry, in order. The dereference panics (`none`) if an entry carries a `nil`
body. -/
def sendMessageBatch (m : MockService) (entries : List SendMessageBatchRequestEntry) :
    Option MockService :=
  entries.foldlM (fun st e => e.messageBody.map (fun b => MockService.mk (st.queue ++ [b]))) m

/-- `mockService.DeleteMessage`: `m.queue = m.queue[1:]`, unconditionally.
The request's receipt handle is ignored. The slice expression is a runtime
bounds violation (`none`) when the queue holds no element. -/
def deleteMessage (m : MockService) (receiptHandle : Option String) : Option MockService :=
  if 1 ≤ m.queue.length then some ⟨m.queue.drop 1⟩ else none

/-- `mockService.DeleteMessageBatch`: `m.queue = m.queue[len(input.Entries):]`,
unconditionally. Only the number of entries matters; handles and ids inside
the entries are ignored. The slice expression is a runtime bounds violation
(`none`) when there are more entries than queued items. -/
def deleteMessageBatch (m : MockService) (entries : List DeleteMessageBatchRequestEntry) :
    Option MockService :=
  if entries.length ≤ m.queue.length then some ⟨m.queue.drop entries.length⟩ else none

/-- `mockService.GetQueueAttributes` composed with the parse in
`Queue.ApproximateLen`: the mock renders `len(m.queue)` with
`strconv.Itoa` and the client parses the attribute back with
`strconv.Atoi`, an exact round trip, so the composite is the length. -/
def getQueueAttributes (m : MockService) : Nat :=
  m.queue.length

/-- `mockService.PurgeQueue`: `m.queue = []string{}`. -/
def purgeQueue (m : MockService) : MockService :=
  ⟨[]⟩

/-- `mockService.ReceiveMessage`: returns
`min(MaxNumberOfMessages, len(m.queue))` messages copied from the head of
the queue, each with the body, a receipt handle pointing at the zero-value
string (so `""`) and no `MessageId`; the queue itself is left untouched
(the method never assigns `m.queue`). The source's index loop over
`i < numMessagesToReturn` is rendered as `take`/`map`. -/
def receiveMessage (m : MockService) (maxNumberOfMessages : Nat) :
    List Message × MockService :=
  let numMessagesToReturn :=
    if m.queue.length > maxNumberOfMessages then maxNumberOfMessages else m.queue.length
  ((m.queue.take numMessagesToReturn).map
      (fun newMessage => ⟨some newMessage, some "", none⟩), m)

/-!
Client operations over an abstract backend. For the real (network) adapter
the outcome of each backend call is a free parameter: `recv` is the result
of `q.receiveNitems(1)` (message list and error), and `del` maps the receipt
handle sent in a `DeleteMessageInput` to the outcome of
`svc.DeleteMessage`. Quantifying over `recv` and `del` quantifies over every
backend state and response.
-/

/-- `Queue.Peek` from `queue.go` over an abstract backend response: on a
receive error return `(nil, err)`; convert; an empty result is `(nil, nil)`;
otherwise the first item with no error. -/
def peek (recv : List Message × Option GoErr) : Option Item × Option GoErr :=
  match recv.2 with
  | some e => (none, some e)
  | none =>
    match convertAwsMessagesToItems recv.1 with
    | [] => (none, none)
    | item :: _ => (some item, none)

/-- `Queue.Delete` from `queue.go` over an abstract backend: builds a
`DeleteMessageInput` carrying the message's receipt handle and returns the
backend's outcome for it. -/
def deleteOne (del : Option String → Option GoErr) (message : Item) : Option GoErr :=
  del message.receiptHandle

/-- `Queue.Pop` from `queue.go` over an abstract backend response: receive
one, convert, return `(nil, nil)` when empty, otherwise `Delete` the first
item and return `(item, err)` — the item is returned even when the delete
errored. -/
def pop (recv : List Message × Option GoErr) (del : Option String → Option GoErr) :
    Option Item × Option GoErr :=
  match recv.2 with
  | some e => (none, some e)
  | none =>
    match convertAwsMessagesToItems recv.1 with
    | [] => (none, none)
    | item :: _ => (some item, deleteOne del item)

/-- Modelled from the spec: "Pop ... equivalent to Peek followed by Delete of
the same message". Runs `peek`; a peek error or empty result is returned as
is; a returned message is `Delete`d and handed back together with the delete
outcome. This is the spec-side comparator for the refinement claim, not a
translation of source code. -/
def popViaPeekThenDelete (recv : List Message × Option GoErr)
    (del : Option String → Option GoErr) : Option Item × Option GoErr :=
  match peek recv with
  | (_, some e) => (none, some e)
  | (none, none) => (none, none)
  | (some message, none) => (some message, deleteOne del message)

/-!
Client operations composed with the in-memory backend. `mock_queue.go`
builds the same `Queue` client over `mockService`, so each client verb below
is the `queue.go` body with the backend calls replaced by the mock methods,
threading the mock state.
-/

/-- `Queue.Peek` running against the mock backend (which never errors). -/
def peekMock (m : MockService) : (Option Item × Option GoErr) × MockService :=
  let r := receiveMessage m 1
  match convertAwsMessagesToItems r.1 with
  | [] => ((none, none), r.2)
  | item :: _ => ((some item, none), r.2)

/-- `Queue.PeekBatch` running against the mock backend: receive up to 10,
convert, return them with the (nil) receive error. -/
def peekBatchMock (m : MockService) : (List Item × Option GoErr) × MockService :=
  let r := receiveMessage m 10
  ((convertAwsMessagesToItems r.1, none), r.2)

/-- `Queue.Pop` running against the mock backend. The result is `none` when
the mock's `DeleteMessage` commits a bounds violation (impossible after a
non-empty receive). -/
def popMock (m : MockService) : Option ((Option Item × Option GoErr) × MockService) :=
  let r := receiveMessage m 1
  match convertAwsMessagesToItems r.1 with
  | [] => some ((none, none), r.2)
  | item :: _ =>
    (deleteMessage r.2 item.receiptHandle).map (fun m2 => ((some item, none), m2))

/-- `Queue.DeleteBatch` running against the mock backend: items are cast
back to wire messages, turned into delete entries and sent to the mock's
`DeleteMessageBatch`. -/
def deleteBatchMock (m : MockService) (messages : List Item) : Option MockService :=
  deleteMessageBatch m
    (makeDeleteMessageBatchRequestEntry (convertItemsToAwsMessages messages))

/-- `Queue.PopBatch` running against the mock backend: `PeekBatch`, return
`(nil, nil)` when it yielded nothing, otherwise `DeleteBatch` the received
messages and return them. -/
def popBatchMock (m : MockService) : Option ((List Item × Option GoErr) × MockService) :=
  let r := peekBatchMock m
  match r.1.1 with
  | [] => some (([], none), r.2)
  | _ :: _ =>
    (deleteBatchMock r.2 r.1.1).map (fun m2 => ((r.1.1, none), m2))

/-- `Queue.Insert` running against the mock backend. -/
def insertMock (m : MockService) (input : String) : MockService :=
  sendMessage m input

/-- `Queue.InsertBatch` running against the mock backend: build the batch
entries (consuming the random stream `σ`) and send them. -/
def insertBatchMock (m : MockService) (inputs : List String) (σ : Nat → Nat) :
    Option MockService :=
  sendMessageBatch m (makeBatchRequestEntries inputs σ)

/-- `Queue.ApproximateLen` running against the mock backend. -/
def approximateLen (m : MockService) : Nat :=
  getQueueAttributes m

/-- A read-only client call: `Peek` or `PeekBatch`. -/
inductive ReadOp where
  | peekOp
  | peekBatchOp
deriving DecidableEq

/-- Runs a sequence of `Peek`/`PeekBatch` calls against the mock backend,
threading the backend state and discarding the returned items. -/
def runReads (ops : List ReadOp) (m : MockService) : MockService :=
  ops.foldl
    (fun st op =>
      match op with
      | ReadOp.peekOp => (peekMock st).2
      | ReadOp.peekBatchOp => (peekBatchMock st).2)
    m

/-!
`Clear` and the purge-completion poller. The backend interactions are passed
in as outcomes: `purgeErr` is the result of `q.purge()` and `lens i` is the
value the `i`-th `ApproximateLen()` poll would observe.
-/

/-- `Queue.waitForPurgeCompletion` from `queue.go`: loops while
`ApproximateLen() > 0`, so it stops at the first poll that observes zero.
Termination requires such a poll to exist; the function returns its index. -/
def waitForPurgeCompletion (lens : Nat → Nat) (h : ∃ i, lens i = 0) : Nat :=
  Nat.find h

/-- `Queue.Clear` from `queue.go`: a purge error is returned immediately
(and the poller never runs, second component `none`); otherwise the poller
runs to completion and the second component is the final length reading it
observed. -/
def clear (purgeErr : Option GoErr) (lens : Nat → Nat)
    (h : purgeErr = none → ∃ i, lens i = 0) : Option GoErr × Option Nat :=
  match purgeErr, h with
  | some e, _ => (some e, none)
  | none, h => (none, some (lens (waitForPurgeCompletion lens (h rfl))))

/-! Helper lemmas shared by the claim theorems. -/

/-- The items produced by the batch-entry builder carry exactly the input
bodies, in order. -/
theorem makeBatchRequestEntries_bodies (items : List String) (σ : Nat → Nat) :
    (makeBatchRequestEntries items σ).map (fun e => e.messageBody) = items.map some := by
  induction items generalizing σ with
  | nil => rfl
  | cons item rest ih => simp [makeBatchRequestEntries, ih]

/-- The mock batch send appends exactly the entry bodies, in order, when all
bodies are present. -/
theorem sendMessageBatch_append (entries : List SendMessageBatchRequestEntry)
    (bodies : List String) (m : MockService)
    (h : entries.map (fun e => e.messageBody) = bodies.map some) :
    sendMessageBatch m entries = some ⟨m.queue ++ bodies⟩ := by
  induction entries generalizing bodies m with
  | nil =>
    cases bodies with
    | nil => simp [sendMessageBatch]
    | cons b bs => simp at h
  | cons e rest ih =>
    cases bodies with
    | nil => simp at h
    | cons b bs =>
      rw [List.map_cons, List.map_cons] at h
      have hb : e.messageBody = some b := (List.cons.injEq _ _ _ _ ▸ h).1
      have hrest : rest.map (fun e => e.messageBody) = bs.map some :=
        (List.cons.injEq _ _ _ _ ▸ h).2
      have step : sendMessageBatch m (e :: rest) = sendMessageBatch ⟨m.queue ++ [b]⟩ rest := by
        simp [sendMessageBatch, hb]
      rw [step, ih bs ⟨m.queue ++ [b]⟩ hrest]
      simp

/-- `InsertBatch` on the mock backend appends exactly the input bodies at the
tail, in order. -/
theorem insertBatchMock_append (m : MockService) (inputs : List String) (σ : Nat → Nat) :
    insertBatchMock m inputs σ = some ⟨m.queue ++ inputs⟩ :=
  sendMessageBatch_append _ _ _ (makeBatchRequestEntries_bodies inputs σ)

/-- A sequence of single `Insert`s appends the bodies in order. -/
theorem foldl_insertMock_queue (bodies : List String) (m : MockService) :
    (List.foldl insertMock m bodies).queue = m.queue ++ bodies := by
  induction bodies generalizing m with
  | nil => simp
  | cons b rest ih => simp [insertMock, sendMessage, ih]

/-- `Peek` against the mock backend does not change the backend state. -/
theorem peekMock_snd (m : MockService) : (peekMock m).2 = m := by
  unfold peekMock
  cases hc : convertAwsMessagesToItems (receiveMessage m 1).1 <;> simp [hc] <;> rfl

/-- `PeekBatch` against the mock backend does not change the backend state. -/
theorem peekBatchMock_snd (m : MockService) : (peekBatchMock m).2 = m :=
  rfl

/-- Every character the ID generator can pick is alphanumeric (the alphabet
is the 52 ASCII letters). -/
theorem letters_getD_isAlphanum : ∀ j, j < letters.length → (letters.getD j ' ').isAlphanum := by
  decide

/-! Claim theorems. -/

/-- C2 (counterexample): the claim "for every configuration whose
visibility-timeout value is less than or equal to 0, constructing a queue
client fails with `ErrInvalidVisibilityTimeout`" is false at the concrete
configuration with visibility timeout `-1`: the timeout is `≤ 0`, yet
`NewQueue` (here with a successful service/URL resolution) returns without
the dedicated error — the validation only tests `timeout == 0`. -/
theorem newQueue_negative_timeout_accepted :
    (-1 : Int) ≤ 0 ∧
      (newQueue ⟨-1, "us-west-2", "q"⟩ none (some "url") none).2 ≠
        some GoErr.invalidVisibilityTimeout := by
  decide

/-- C2 (amended): constructing a queue client fails with
`ErrInvalidVisibilityTimeout` exactly when the configured visibility timeout
equals 0, regardless of the region and name fields and of the backend's
service/URL resolution outcomes; for every nonzero timeout (positive or
negative) that error is never raised. -/
theorem newQueue_error_iff_timeout_zero (config : Config) (svcErr : Option String)
    (urlVal : Option String) (urlErr : Option String) :
    (newQueue config svcErr urlVal urlErr).2 = some GoErr.invalidVisibilityTimeout ↔
      config.visibilityTimeout = 0 := by
  by_cases h0 : config.visibilityTimeout = 0
  · simp [newQueue, invalidVisibilityTimeout, h0]
  · cases svcErr <;> cases urlErr <;>
      simp [newQueue, invalidVisibilityTimeout, h0]

/-- C4: on the in-memory backend, delete removes exactly the head item of
any non-empty queue and delete-batch with `k` entries removes exactly the
first `k` items (given at least `k` items are present) — in both cases
whatever receipt handles or identifiers the request carries. -/
theorem mock_delete_removes_head (b : String) (l : List String) (handle : Option String)
    (q : List String) (entries : List DeleteMessageBatchRequestEntry)
    (h : entries.length ≤ q.length) :
    deleteMessage ⟨b :: l⟩ handle = some ⟨l⟩ ∧
      deleteMessageBatch ⟨q⟩ entries = some ⟨q.drop entries.length⟩ := by
  constructor
  · simp [deleteMessage]
  · simp [deleteMessageBatch, h]

/-- C4 witness: a concrete delete (with a nontrivial handle) and a concrete
two-item batch delete with one entry. -/
theorem mock_delete_removes_head_witness :
    ([(⟨some "h1", some "i1"⟩ : DeleteMessageBatchRequestEntry)].length ≤
        (["a", "b"] : List String).length) ∧
      (deleteMessage ⟨["a"]⟩ (some "zzz") = some ⟨[]⟩ ∧
        deleteMessageBatch ⟨["a", "b"]⟩ [⟨some "h1", some "i1"⟩] = some ⟨["b"]⟩) :=
  ⟨by decide,
    mock_delete_removes_head "a" [] (some "zzz") ["a", "b"] [⟨some "h1", some "i1"⟩]
      (by decide)⟩

/-- C10: on the in-memory backend, delete on an empty queue and delete-batch
with more entries than queued items are runtime bounds violations (the code
slices the backing list without any length check), not returned errors and
not no-ops. -/
theorem mock_delete_bounds_violation (handle : Option String) (q : List String)
    (entries : List DeleteMessageBatchRequestEntry) (h : q.length < entries.length) :
    deleteMessage ⟨[]⟩ handle = none ∧ deleteMessageBatch ⟨q⟩ entries = none := by
  refine ⟨by simp [deleteMessage], ?_⟩
  rw [deleteMessageBatch, if_neg (Nat.not_le.mpr h)]

/-- C10 witness: deleting from the fresh empty mock queue, and batch-deleting
one entry from the empty queue, both hit the bounds violation. -/
theorem mock_delete_bounds_violation_witness :
    (([] : List String).length < [(⟨none, none⟩ : DeleteMessageBatchRequestEntry)].length) ∧
      (deleteMessage ⟨[]⟩ none = none ∧
        deleteMessageBatch ⟨[]⟩ [⟨none, none⟩] = none) :=
  ⟨by decide, mock_delete_bounds_violation none [] [⟨none, none⟩] (by decide)⟩

/-- Receiving at most one message from a non-empty mock queue yields exactly
the head body (with the shared zero-value receipt handle). -/
theorem receiveMessage_one (b : String) (l : List String) :
    (receiveMessage ⟨b :: l⟩ 1).1 = [⟨some b, some "", none⟩] := by
  rcases l with _ | ⟨c, l2⟩
  · rfl
  · simp [receiveMessage]

/-- C3: on the empty in-memory queue, `Peek` and `Pop` both return the
explicit no-message result `(nil, nil)` — no error — and the empty-queue
result is distinguishable from a real message: on any non-empty queue `Peek`
returns an actual item. -/
theorem peek_empty_returns_no_message :
    peekMock ⟨[]⟩ = ((none, none), ⟨[]⟩) ∧
      popMock ⟨[]⟩ = some ((none, none), ⟨[]⟩) ∧
      ∀ m : MockService, m.queue ≠ [] → ((peekMock m).1).1.isSome := by
  refine ⟨rfl, rfl, ?_⟩
  rintro ⟨q⟩ hq
  rcases q with _ | ⟨b, l⟩
  · exact absurd rfl hq
  · simp [peekMock, receiveMessage_one, convertAwsMessagesToItems]

/-- C3 witness: a singleton queue yields a real message from `Peek`. -/
theorem peek_empty_returns_no_message_witness :
    ((⟨["a"]⟩ : MockService).queue ≠ []) ∧ (((peekMock ⟨["a"]⟩).1).1).isSome :=
  ⟨by decide, peek_empty_returns_no_message.2.2 ⟨["a"]⟩ (by decide)⟩

/-- C6: on the in-memory backend, `PeekBatch` returns exactly
`min 10 (queue length)` items — hence at most 10 and at most the number of
items present — and any sequence of `Peek`/`PeekBatch` calls with no
intervening delete leaves the backend state (and so `ApproximateLen`)
unchanged. -/
theorem peekBatch_bounded_and_reads_frame (m : MockService) (ops : List ReadOp) :
    ((peekBatchMock m).1).1.length = min 10 m.queue.length ∧
      ((peekBatchMock m).1).1.length ≤ 10 ∧
      ((peekBatchMock m).1).1.length ≤ m.queue.length ∧
      runReads ops m = m ∧
      approximateLen (runReads ops m) = approximateLen m := by
  have hlen : ((peekBatchMock m).1).1.length = min 10 m.queue.length := by
    by_cases h10 : m.queue.length > 10 <;>
      simp [peekBatchMock, receiveMessage, convertAwsMessagesToItems, h10] <;>
      omega
  have hframe : ∀ m2 : MockService, runReads ops m2 = m2 := by
    induction ops with
    | nil => intro m2; rfl
    | cons op rest ih =>
      intro m2
      cases op with
      | peekOp =>
        have hstep : runReads (ReadOp.peekOp :: rest) m2 = runReads rest (peekMock m2).2 := rfl
        rw [hstep, peekMock_snd]
        exact ih m2
      | peekBatchOp =>
        have hstep : runReads (ReadOp.peekBatchOp :: rest) m2 =
            runReads rest (peekBatchMock m2).2 := rfl
        rw [hstep, peekBatchMock_snd]
        exact ih m2
  exact ⟨hlen, by omega, by omega, hframe m, by rw [hframe m]⟩

/-- C7: on the in-memory backend, starting from the empty queue, `N`
sequential single `Insert`s make `ApproximateLen` return exactly `N`; and
`InsertBatch` with `k` bodies (`1 ≤ k ≤ 10`) appends exactly those bodies at
the tail in input order, increasing `ApproximateLen` by exactly `k`. -/
theorem insert_exact_length (bodies : List String) (m : MockService)
    (inputs : List String) (σ : Nat → Nat)
    (h1 : 1 ≤ inputs.length) (h10 : inputs.length ≤ 10) :
    approximateLen (List.foldl insertMock ⟨[]⟩ bodies) = bodies.length ∧
      insertBatchMock m inputs σ = some ⟨m.queue ++ inputs⟩ ∧
      approximateLen ⟨m.queue ++ inputs⟩ = approximateLen m + inputs.length := by
  refine ⟨?_, insertBatchMock_append m inputs σ, ?_⟩
  · simp [approximateLen, getQueueAttributes, foldl_insertMock_queue]
  · simp [approximateLen, getQueueAttributes]

/-- C7 witness: two single inserts give length 2; a three-body batch insert
into a one-item queue appends the three bodies and raises the length from 1
to 4. -/
theorem insert_exact_length_witness :
    (1 ≤ (["c", "d", "e"] : List String).length ∧ (["c", "d", "e"] : List String).length ≤ 10) ∧
      (approximateLen (List.foldl insertMock ⟨[]⟩ ["a", "b"]) = 2 ∧
        insertBatchMock ⟨["x"]⟩ ["c", "d", "e"] (fun draw => draw) =
          some ⟨["x", "c", "d", "e"]⟩ ∧
        approximateLen ⟨["x", "c", "d", "e"]⟩ = approximateLen ⟨["x"]⟩ + 3) :=
  ⟨by decide,
    by simpa using
      insert_exact_length ["a", "b"] ⟨["x"]⟩ ["c", "d", "e"] (fun draw => draw)
        (by decide) (by decide)⟩

/-- C9: `InsertBatch` pairs each input body, in order, with a freshly drawn
identifier, and every identifier is a 15-character string all of whose
characters come from the generator's alphanumeric (52 ASCII letters)
alphabet. -/
theorem insertBatch_ids_alphanumeric (items : List String) (σ : Nat → Nat) :
    (makeBatchRequestEntries items σ).map (fun e => e.messageBody) = items.map some ∧
      ∀ e ∈ makeBatchRequestEntries items σ, ∃ s, e.id = some s ∧
        s.length = 15 ∧ ∀ c ∈ s.toList, c.isAlphanum := by
  refine ⟨makeBatchRequestEntries_bodies items σ, ?_⟩
  induction items generalizing σ with
  | nil => intro e he; simp [makeBatchRequestEntries] at he
  | cons item rest ih =>
    intro e he
    rw [makeBatchRequestEntries, List.mem_cons] at he
    rcases he with he | he
    · refine ⟨generateRandomID σ, by rw [he], rfl, ?_⟩
      intro c hc
      have hc2 : c ∈ (List.range 15).map
          (fun i => letters.getD (σ i % letters.length) ' ') := hc
      rcases List.mem_map.mp hc2 with ⟨i, _, rfl⟩
      exact letters_getD_isAlphanum _ (Nat.mod_lt _ (by decide))
    · exact ih _ e he

/-- C9 witness: a singleton batch; its entry carries the body and an
identifier of length 15 made of alphanumeric characters. -/
theorem insertBatch_ids_alphanumeric_witness :
    ((⟨some (generateRandomID (fun draw => draw)), some "a"⟩ : SendMessageBatchRequestEntry) ∈
        makeBatchRequestEntries ["a"] (fun draw => draw)) ∧
      ∃ s, (⟨some (generateRandomID (fun draw => draw)), some "a"⟩ :
            SendMessageBatchRequestEntry).id = some s ∧
        s.length = 15 ∧ ∀ c ∈ s.toList, c.isAlphanum :=
  ⟨by simp [makeBatchRequestEntries],
    (insertBatch_ids_alphanumeric ["a"] (fun draw => draw)).2 _
      (by simp [makeBatchRequestEntries])⟩

/-- The mock receive leaves the backend state untouched. -/
theorem receiveMessage_snd (m : MockService) (n : Nat) : (receiveMessage m n).2 = m :=
  rfl

/-- Receiving up to 10 messages from a mock queue holding at most 10 items
yields all of them, in order. -/
theorem receiveMessage_ten (l2 : List String) (h : l2.length ≤ 10) :
    (receiveMessage ⟨l2⟩ 10).1 = l2.map (fun body => ⟨some body, some "", none⟩) := by
  have hn : ¬ ((MockService.mk l2).queue.length > 10) := by simpa using Nat.not_lt.mpr h
  simp [receiveMessage, hn]

/-- C8: on the in-memory backend, `Pop` removes exactly the one (head)
message it returns, decreasing `ApproximateLen` by exactly 1; and `PopBatch`
on a queue holding `m ≤ 10` items returns exactly those `m` items and leaves
the queue drained to length 0. -/
theorem pop_removes_returned_message (b : String) (l : List String)
    (l2 : List String) (h : l2.length ≤ 10) :
    popMock ⟨b :: l⟩ = some ((some ⟨some b, some "", none⟩, none), ⟨l⟩) ∧
      approximateLen ⟨l⟩ + 1 = approximateLen ⟨b :: l⟩ ∧
      popBatchMock ⟨l2⟩ =
        some ((l2.map (fun body => ⟨some body, some "", none⟩), none), ⟨[]⟩) ∧
      (l2.map (fun body => (⟨some body, some "", none⟩ : Message))).length = l2.length ∧
      approximateLen ⟨[]⟩ = 0 := by
  refine ⟨?_, ?_, ?_, by simp, rfl⟩
  · simp [popMock, receiveMessage_one, receiveMessage_snd, convertAwsMessagesToItems,
      deleteMessage]
  · simp [approximateLen, getQueueAttributes]
  · rcases l2 with _ | ⟨c, rest⟩
    · rfl
    · simp [popBatchMock, peekBatchMock, receiveMessage_ten _ h, receiveMessage_snd,
        convertAwsMessagesToItems, deleteBatchMock, deleteMessageBatch,
        makeDeleteMessageBatchRequestEntry, convertItemsToAwsMessages]

/-- C8 witness: popping a two-item queue removes the head only; batch-popping
a two-item queue returns both items and drains it. -/
theorem pop_removes_returned_message_witness :
    ((["a", "b"] : List String).length ≤ 10) ∧
      (popMock ⟨["x", "y"]⟩ = some ((some ⟨some "x", some "", none⟩, none), ⟨["y"]⟩) ∧
        popBatchMock ⟨["a", "b"]⟩ =
          some (([⟨some "a", some "", none⟩, ⟨some "b", some "", none⟩], none), ⟨[]⟩)) := by
  refine ⟨by decide, ?_, ?_⟩
  · exact (pop_removes_returned_message "x" ["y"] [] (by decide)).1
  · simpa using (pop_removes_returned_message "x" ["y"] ["a", "b"] (by decide)).2.2.1

/-- C5: whenever `Clear` returns without error, the poller has observed
`ApproximateLen() = 0` at the moment of return (having re-queried while the
length stayed positive); and whenever the purge call fails, `Clear` returns
that error immediately and the polling loop is never entered. On the
in-memory backend purging itself makes the length 0 at once. -/
theorem clear_drains_or_propagates (purgeErr : Option GoErr) (lens : Nat → Nat)
    (h : purgeErr = none → ∃ i, lens i = 0) :
    (∀ e, purgeErr = some e → clear purgeErr lens h = (some e, none)) ∧
      (purgeErr = none →
        ∃ i, lens i = 0 ∧ (∀ j, j < i → 0 < lens j) ∧
          clear purgeErr lens h = (none, some (lens i)) ∧
          (clear purgeErr lens h).2 = some 0) ∧
      ∀ m : MockService, approximateLen (purgeQueue m) = 0 := by
  refine ⟨?_, ?_, fun m => rfl⟩
  · rintro e rfl
    rfl
  · rintro rfl
    refine ⟨Nat.find (h rfl), Nat.find_spec (h rfl), ?_, rfl, ?_⟩
    · intro j hj
      have hne := Nat.find_min (h rfl) hj
      omega
    · show (none, some (lens (waitForPurgeCompletion lens (h rfl)))).2 = some 0
      simp [waitForPurgeCompletion, Nat.find_spec (h rfl)]

/-- C5 witness: a failed purge propagates the error without polling; a
successful purge (with the mock's immediate-zero length behaviour) returns
having observed length 0. -/
theorem clear_drains_or_propagates_witness :
    clear (some (GoErr.aws "boom")) (fun i => 0) (fun hc => Option.noConfusion hc) =
        (some (GoErr.aws "boom"), none) ∧
      (clear none (fun i => 0) (fun hc => ⟨0, rfl⟩)).2 = some 0 := by
  refine ⟨(clear_drains_or_propagates _ _ _).1 (GoErr.aws "boom") rfl, ?_⟩
  obtain ⟨i, hi⟩ :=
    (clear_drains_or_propagates none (fun i => 0) (fun hc => ⟨0, rfl⟩)).2.1 rfl
  exact hi.2.2.2

/-- C1: `Pop` is extensionally the composition "Peek, then Delete the
returned message" for every backend receive outcome `recv` and delete
behaviour `del`; in particular, when the receive succeeds with a message and
the delete of it fails, `Pop` still hands that message to the caller
together with the delete error. -/
theorem pop_equiv_peek_then_delete (recv : List Message × Option GoErr)
    (del : Option String → Option GoErr) :
    pop recv del = popViaPeekThenDelete recv del ∧
      ∀ msg rest e, recv = (msg :: rest, none) → del msg.receiptHandle = some e →
        pop recv del = (some msg, some e) := by
  constructor
  · rcases recv with ⟨msgs, err⟩
    cases err with
    | some e => rfl
    | none =>
      cases msgs with
      | nil => rfl
      | cons msg rest => rfl
  · rintro msg rest e rfl hd
    simp [pop, convertAwsMessagesToItems, deleteOne, hd]

/-- C1 witness: a one-message receive whose delete fails; `Pop` returns the
message together with the delete error. -/
theorem pop_equiv_peek_then_delete_witness :
    (([(⟨some "x", some "rh", none⟩ : Message)], (none : Option GoErr)) =
        ((⟨some "x", some "rh", none⟩ : Message) :: [], (none : Option GoErr)) ∧
      (fun handle => some (GoErr.aws "boom"))
          (⟨some "x", some "rh", none⟩ : Message).receiptHandle =
        some (GoErr.aws "boom")) ∧
      pop ([⟨some "x", some "rh", none⟩], none) (fun handle => some (GoErr.aws "boom")) =
        (some ⟨some "x", some "rh", none⟩, some (GoErr.aws "boom")) :=
  ⟨⟨rfl, rfl⟩,
    (pop_equiv_peek_then_delete ([⟨some "x", some "rh", none⟩], none)
        (fun handle => some (GoErr.aws "boom"))).2
      ⟨some "x", some "rh", none⟩ [] (GoErr.aws "boom") rfl rfl⟩

end SQS
